import Mathlib

/-!
Shallow embedding of the offline-first reactive collection engine:
the collection factory (createCollection), the shared singleton
variant (createSharedCollection), and the record-store module
(createModule) it is built on.

Records are modelled as structures with the mandatory `id`,
`createdAt`, optional `updatedAt`, plus an association list for
the remaining payload fields.  Asynchronous persistence calls are
modelled by passing their outcome (`Except`) as an argument: the
engine code is deterministic given that outcome.
-/

namespace Tasks

/-- A record (BaseItem): `id`, `createdAt`, optional `updatedAt`, and the
remaining payload fields as a string-keyed association list. -/
structure Item where
  id : String
  createdAt : Int
  updatedAt : Option Int
  fields : List (String × String)
deriving DecidableEq, Repr

/-- A partial update (`Partial<Omit<T, 'id' | 'createdAt'>>`): field
overrides, keyed by field name.  `id` and `createdAt` cannot appear
(excluded at the type level in the source). -/
abbrev Upd := List (String × String)

/-- Set one payload field, overwriting the first existing binding of that
key or appending a fresh one. -/
def setField : List (String × String) → String → String → List (String × String)
  | [], k, v => [(k, v)]
  | (k0, v0) :: fs, k, v =>
    if k0 = k then (k, v) :: fs else (k0, v0) :: setField fs k v

/-- `Object.assign(item, updates, { updatedAt: now })` /
`{ ...existing, ...updates, updatedAt: now }`: apply the field overrides
and stamp `updatedAt`.  `id` and `createdAt` are untouched. -/
def applyUpd (u : Upd) (now : Int) (it : Item) : Item :=
  { it with
    fields := u.foldl (fun fs kv => setField fs kv.1 kv.2) it.fields
    updatedAt := some now }

/-- The default sort comparator: `(a, b) => b.createdAt - a.createdAt`
(newest first). -/
def cmpDefault (a b : Item) : Int :=
  b.createdAt - a.createdAt

/-- `items.findIndex(item => item.id === id)`: index of the first item with
the given id, `none` when absent (the source's `-1`). -/
def findIdxById (id : String) : List Item → Option Nat
  | [] => none
  | a :: l => if a.id = id then some 0 else (findIdxById id l).map (· + 1)

/-- The item captured for rollback:
`originalIndex !== -1 ? { ...items[originalIndex] } : null`. -/
def origOf (id : String) (l : List Item) : Option Item :=
  (findIdxById id l).bind (fun i => l[i]?)

/-- `items.splice(i, 0, x)`: insert `x` at position `i` (clamped to the end
when `i` exceeds the length, as in JavaScript). -/
def insertAt : List Item → Nat → Item → List Item
  | l, 0, x => x :: l
  | [], _ + 1, x => [x]
  | a :: l, n + 1, x => a :: insertAt l n x

/-- One step of the stable sort: insert `a` before the first element `b`
with `cmp a b ≤ 0`. -/
def insertSorted (cmp : Item → Item → Int) (a : Item) : List Item → List Item
  | [] => [a]
  | b :: l => if cmp a b ≤ 0 then a :: b :: l else b :: insertSorted cmp a l

/-- `array.sort(cmp)`: a stable sort with respect to the comparator
(ECMAScript sort is stable), modelled as stable insertion sort. -/
def jsSort (cmp : Item → Item → Int) : List Item → List Item
  | [] => []
  | a :: l => insertSorted cmp a (jsSort cmp l)

/-- The list is sorted according to the comparator: every adjacent pair
`a, b` satisfies `cmp a b ≤ 0`. -/
def sortedBy (cmp : Item → Item → Int) : List Item → Bool
  | [] => true
  | [_] => true
  | a :: b :: l => decide (cmp a b ≤ 0) && sortedBy cmp (b :: l)

/-! ## Collection Engine state (createCollection) -/

/-- The reactive state owned by one `createCollection` instance: `items`,
`isLoading`, `error` (message of the last failure, `none` when clear) and
the `initialLoadComplete` flag. -/
structure CollState where
  items : List Item
  loading : Bool
  error : Option String
  initialLoadComplete : Bool
deriving DecidableEq, Repr

/-- `reload()`: clear `error`, fetch all items (`module.getAllAsArray`,
whose outcome is the `fetch` argument), apply `filterFn` then sort with
`sortFn`, and replace `items`; on failure set `error` and keep `items`.
Either way `loading` becomes false and `initialLoadComplete` true. -/
def CollState.reload (cmp : Item → Item → Int) (filterFn : Option (Item → Bool))
    (fetch : Except String (List Item)) (s : CollState) : CollState :=
  match fetch with
  | Except.ok allItems =>
    let processed := match filterFn with
      | some f => allItems.filter f
      | none => allItems
    { s with error := none, items := jsSort cmp processed,
             loading := false, initialLoadComplete := true }
  | Except.error e =>
    { s with error := some e, loading := false, initialLoadComplete := true }

/-- `add(data)`: call `module.create` first (outcome `createRes`); on
failure set `error` and rethrow without touching `items`; on success
unshift the created item and re-sort. -/
def CollState.add (cmp : Item → Item → Int) (createRes : Except String Item)
    (s : CollState) : CollState × Except String Item :=
  match createRes with
  | Except.error e => ({ s with error := some e }, Except.error e)
  | Except.ok item =>
    ({ s with items := jsSort cmp (item :: s.items) }, Except.ok item)

/-- The optimistic phase of `update`: find the item by id and assign the
updates plus a fresh `updatedAt` in place (no re-sort). -/
def optimisticUpdate (u : Upd) (now : Int) (id : String) (l : List Item) : List Item :=
  match findIdxById id l with
  | some i =>
    match l[i]? with
    | some it => l.set i (applyUpd u now it)
    | none => l
  | none => l

/-- The rollback phase of `update`: when an original was captured, find the
item by id again and restore the captured copy at that index. -/
def rollbackUpdate (id : String) (original : Option Item) (l : List Item) : List Item :=
  match original with
  | some orig =>
    match findIdxById id l with
    | some i => l.set i orig
    | none => l
  | none => l

/-- `update(id, updates)`: capture the original for rollback, apply the
optimistic in-place update, then persist (`module.update`, outcome
`persist`); on failure restore the captured item, set `error`, rethrow. -/
def CollState.update (now : Int) (id : String) (u : Upd)
    (persist : Except String Unit) (s : CollState) : CollState × Except String Unit :=
  let original := origOf id s.items
  let items1 := optimisticUpdate u now id s.items
  match persist with
  | Except.ok _ => ({ s with items := items1 }, Except.ok ())
  | Except.error e =>
    ({ s with items := rollbackUpdate id original items1, error := some e },
     Except.error e)

/-- The optimistic phase of `remove`: find the item by id and splice it
out. -/
def optimisticRemove (id : String) (l : List Item) : List Item :=
  match findIdxById id l with
  | some i => l.eraseIdx i
  | none => l

/-- The rollback phase of `remove`: when an original was captured, splice
it back in at its captured index and re-sort. -/
def rollbackRemove (cmp : Item → Item → Int) (original : Option Item)
    (originalIndex : Option Nat) (l : List Item) : List Item :=
  match original, originalIndex with
  | some orig, some i => jsSort cmp (insertAt l i orig)
  | _, _ => l

/-- `remove(id)`: capture the original item and its index, splice it out
optimistically, then persist (`module.remove`, outcome `persist`); on
failure splice the captured item back at its index, re-sort, set `error`,
rethrow. -/
def CollState.remove (cmp : Item → Item → Int) (id : String)
    (persist : Except String Unit) (s : CollState) : CollState × Except String Unit :=
  let originalIndex := findIdxById id s.items
  let original := origOf id s.items
  let items1 := optimisticRemove id s.items
  match persist with
  | Except.ok _ => ({ s with items := items1 }, Except.ok ())
  | Except.error e =>
    ({ s with items := rollbackRemove cmp original originalIndex items1,
              error := some e },
     Except.error e)

/-! ## Change notifications -/

/-- The origin tag of a change notification.  `localOrigin` stands for the
source's `'local'` (a Lean keyword). -/
inductive Origin where
  | window
  | localOrigin
  | remote
  | conflict
deriving DecidableEq, Repr

/-- The `createCollection` change handler: number of `reload()` calls it
makes for one notification.  It reloads only when `initialLoadComplete`
holds and the origin is `remote` or `local`. -/
def changeHandlerReloads (initialLoadComplete : Bool) (o : Origin) : Nat :=
  if initialLoadComplete ∧ (o = Origin.remote ∨ o = Origin.localOrigin) then 1 else 0

/-- The `createSharedCollection` change handler: reloads exactly when the
origin is `remote` or `local` (no initial-load gate). -/
def sharedHandlerReloads (o : Origin) : Nat :=
  if o = Origin.remote ∨ o = Origin.localOrigin then 1 else 0

/-! ## Shared Collection Variant (createSharedCollection) -/

/-- The reactive state of the shared collection: `items`, `isLoading`,
`error`, and the `isInitialized` signal (named `initDone` here), set once
the first reload has finished, success or failure. -/
structure SharedState where
  items : List Item
  loading : Bool
  error : Option String
  initDone : Bool
deriving DecidableEq, Repr

/-- The shared collection's `reload()`: identical to the per-component one
except that the `finally` block sets the `isInitialized` signal. -/
def SharedState.reload (cmp : Item → Item → Int) (filterFn : Option (Item → Bool))
    (fetch : Except String (List Item)) (s : SharedState) : SharedState :=
  match fetch with
  | Except.ok allItems =>
    let processed := match filterFn with
      | some f => allItems.filter f
      | none => allItems
    { s with error := none, items := jsSort cmp processed,
             loading := false, initDone := true }
  | Except.error e =>
    { s with error := some e, loading := false, initDone := true }

/-- The lifecycle bookkeeping of one shared collection: the `hasInit`
guard, whether the reactive root's dispose function is still held
(`dispose` is set to null once called), the number of change handlers
registered with `module.onChange` (there is no unsubscribe), and the
number of `reload()` calls made so far. -/
structure SharedLC where
  hasInit : Bool
  rootAlive : Bool
  handlers : Nat
  reloadCalls : Nat
deriving DecidableEq, Repr

/-- The state of a freshly created shared collection, before `init()`. -/
def freshShared : SharedLC :=
  { hasInit := false, rootAlive := true, handlers := 0, reloadCalls := 0 }

/-- `init()`: a no-op (warning only) when `hasInit` already holds;
otherwise set the guard, call `reload()` once and register one change
handler via `module.onChange`. -/
def sharedInit (st : SharedLC) : SharedLC :=
  if st.hasInit then st
  else { st with hasInit := true,
                 reloadCalls := st.reloadCalls + 1,
                 handlers := st.handlers + 1 }

/-- `dispose()` (disposeCollection): call the reactive root's dispose
function if still held and null it out, and reset the `hasInit` guard.
Nothing is unregistered from `module.onChange`. -/
def disposeCollection (st : SharedLC) : SharedLC :=
  { st with rootAlive := false, hasInit := false }

/-- Delivery of one change notification to the module: every handler ever
registered runs, and each one calls `reload()` exactly when the origin is
`remote` or `local`. -/
def deliverChange (o : Origin) (st : SharedLC) : SharedLC :=
  if o = Origin.remote ∨ o = Origin.localOrigin then
    { st with reloadCalls := st.reloadCalls + st.handlers }
  else st

/-! ## Record Store Adapter (createModule) -/

/-- A JSON value, as stored in one partition of the remote persistence
service and returned raw by `privateClient.getAll`. -/
inductive JVal where
  | jnull
  | jbool (b : Bool)
  | jnum (n : Int)
  | jstr (s : String)
  | jarr (l : List JVal)
  | jobj (fields : List (String × JVal))

/-- JavaScript truthiness of a JSON value (the `value &&` test). -/
def jsTruthy : JVal → Bool
  | JVal.jnull => false
  | JVal.jbool b => b
  | JVal.jnum n => n ≠ 0
  | JVal.jstr s => s ≠ ""
  | JVal.jarr _ => true
  | JVal.jobj _ => true

/-- `typeof value === 'object'`: true for objects, arrays and null. -/
def jsTypeofObject : JVal → Bool
  | JVal.jnull => true
  | JVal.jarr _ => true
  | JVal.jobj _ => true
  | _ => false

/-- `'id' in value`: key membership; a JSON array has only index
properties, so the test is false for arrays, and the primitives are
guarded out before the test runs in the source. -/
def hasIdKey : JVal → Bool
  | JVal.jobj fs => fs.any (fun kv => kv.1 = "id")
  | _ => false

/-- The module's `getAll`: keep exactly the listing entries whose value
passes `value && typeof value === 'object' && 'id' in value`. -/
def getAllFilter (listing : List (String × JVal)) : List (String × JVal) :=
  listing.filter (fun kv => jsTruthy kv.2 && jsTypeofObject kv.2 && hasIdKey kv.2)

/-- The specification-side predicate: the value is an object that contains
an `id` field. -/
def isObjWithId : JVal → Bool
  | JVal.jobj fs => fs.any (fun kv => kv.1 = "id")
  | _ => false

/-- The typed view of one partition held by the persistence layer:
id-keyed records. -/
abbrev Store := List (String × Item)

/-- The module's `get(id)` seen through the typed store: the record at
that key, if any. -/
def mget (st : Store) (id : String) : Option Item :=
  (st.find? (fun kv => decide (kv.1 = id))).map (fun kv => kv.2)

/-- `privateClient.storeObject(name, key, item)`: upsert at the key.
Modelled from the spec boundary for the external store: `store` upserts
by id. -/
def storeAssoc : Store → String → Item → Store
  | [], k, it => [(k, it)]
  | (k0, v0) :: st, k, it =>
    if k0 = k then (k, it) :: st else (k0, v0) :: storeAssoc st k it

/-- The module's `update(id, updates)`: load the current record, return
`none` without storing when absent, else merge the updates, stamp
`updatedAt = now`, store under the merged record's id, and return it. -/
def mupdate (now : Int) (st : Store) (id : String) (u : Upd) : Store × Option Item :=
  match mget st id with
  | none => (st, none)
  | some existing =>
    let updated := applyUpd u now existing
    (storeAssoc st updated.id updated, some updated)

/-- The module's `remove(id)`, delegating to `privateClient.remove(id)`:
deletes the key; per the spec's adapter boundary removal is idempotent and
removing an absent id succeeds. -/
def mremove (st : Store) (id : String) : Store :=
  st.filter (fun kv => decide (kv.1 ≠ id))

/-! ## Helper lemmas -/

theorem applyUpd_id (u : Upd) (now : Int) (it : Item) :
    (applyUpd u now it).id = it.id := rfl

theorem applyUpd_createdAt (u : Upd) (now : Int) (it : Item) :
    (applyUpd u now it).createdAt = it.createdAt := rfl

theorem set_getElem_self {α : Type} : ∀ (l : List α) (i : Nat) (x : α),
    l[i]? = some x → l.set i x = l
  | [], _, _, h => by simp at h
  | a :: l, 0, x, h => by
    simp only [List.getElem?_cons_zero, Option.some.injEq] at h
    simp [List.set, h]
  | a :: l, i + 1, x, h => by
    simp only [List.getElem?_cons_succ] at h
    simp [List.set, set_getElem_self l i x h]

theorem findIdxById_getElem (id : String) : ∀ (l : List Item) (i : Nat),
    findIdxById id l = some i → ∃ it, l[i]? = some it ∧ it.id = id
  | [], i, h => by simp [findIdxById] at h
  | a :: l, i, h => by
    by_cases ha : a.id = id
    · simp [findIdxById, ha] at h
      exact ⟨a, by simp [← h], ha⟩
    · simp only [findIdxById, ha, if_false] at h
      cases hf : findIdxById id l with
      | none => simp [hf] at h
      | some j =>
        simp [hf] at h
        obtain ⟨it, hg, hid⟩ := findIdxById_getElem id l j hf
        exact ⟨it, by simp [← h, hg], hid⟩

theorem findIdxById_set (id : String) : ∀ (l : List Item) (i : Nat) (it x : Item),
    l[i]? = some it → x.id = it.id →
    findIdxById id (l.set i x) = findIdxById id l
  | [], _, _, _, h, _ => by simp at h
  | a :: l, 0, it, x, h, hx => by
    simp only [List.getElem?_cons_zero, Option.some.injEq] at h
    subst h
    simp [List.set, findIdxById, hx]
  | a :: l, i + 1, it, x, h, hx => by
    simp only [List.getElem?_cons_succ] at h
    simp [List.set, findIdxById, findIdxById_set id l i it x h hx]

theorem insertAt_eraseIdx : ∀ (l : List Item) (i : Nat) (x : Item),
    l[i]? = some x → insertAt (l.eraseIdx i) i x = l
  | [], _, _, h => by simp at h
  | a :: l, 0, x, h => by
    simp only [List.getElem?_cons_zero, Option.some.injEq] at h
    simp [List.eraseIdx, insertAt, h]
  | a :: l, i + 1, x, h => by
    simp only [List.getElem?_cons_succ] at h
    simp [List.eraseIdx, insertAt, insertAt_eraseIdx l i x h]

theorem update_rollback_items (u : Upd) (now : Int) (id : String) (l : List Item) :
    rollbackUpdate id (origOf id l) (optimisticUpdate u now id l) = l := by
  cases hf : findIdxById id l with
  | none => simp [origOf, optimisticUpdate, rollbackUpdate, hf]
  | some i =>
    obtain ⟨it, hg, hid⟩ := findIdxById_getElem id l i hf
    have hids : (applyUpd u now it).id = it.id := applyUpd_id u now it
    have hset : findIdxById id (l.set i (applyUpd u now it)) = findIdxById id l :=
      findIdxById_set id l i it (applyUpd u now it) hg hids
    simp only [origOf, optimisticUpdate, rollbackUpdate, hf, hg, Option.some_bind, hset]
    show (l.set i (applyUpd u now it)).set i it = l
    rw [List.set_set]
    exact set_getElem_self l i it hg

/-- Head condition for a sorted cons cell: the first element, when one
exists, is not after `a`. -/
def leadOK (cmp : Item → Item → Int) (a : Item) : List Item → Bool
  | [] => true
  | b :: _ => decide (cmp a b ≤ 0)

theorem sortedBy_cons (cmp : Item → Item → Int) (a : Item) (l : List Item) :
    sortedBy cmp (a :: l) = (leadOK cmp a l && sortedBy cmp l) := by
  cases l <;> simp [sortedBy, leadOK]

theorem leadOK_insertSorted (cmp : Item → Item → Int) (b a : Item) (l : List Item)
    (hb : leadOK cmp b l = true) (hba : cmp b a ≤ 0) :
    leadOK cmp b (insertSorted cmp a l) = true := by
  cases l with
  | nil => simp [insertSorted, leadOK, hba]
  | cons c l' =>
    by_cases h : cmp a c ≤ 0
    · simp [insertSorted, h, leadOK, hba]
    · simp only [insertSorted, if_neg h]
      simpa [leadOK] using hb

theorem sortedBy_insertSorted (cmp : Item → Item → Int)
    (htot : ∀ a b, cmp a b ≤ 0 ∨ cmp b a ≤ 0) (a : Item) :
    ∀ l, sortedBy cmp l = true → sortedBy cmp (insertSorted cmp a l) = true
  | [], _ => by simp [insertSorted, sortedBy]
  | b :: l, hs => by
    rw [sortedBy_cons] at hs
    obtain ⟨hb, hl⟩ := Bool.and_eq_true_iff.mp hs
    by_cases h : cmp a b ≤ 0
    · simp only [insertSorted, if_pos h]
      rw [sortedBy_cons]
      refine Bool.and_eq_true_iff.mpr ⟨by simp [leadOK, h], ?_⟩
      rw [sortedBy_cons]
      exact hs
    · have hba : cmp b a ≤ 0 := (htot a b).resolve_left h
      simp only [insertSorted, if_neg h]
      rw [sortedBy_cons]
      exact Bool.and_eq_true_iff.mpr
        ⟨leadOK_insertSorted cmp b a l hb hba,
         sortedBy_insertSorted cmp htot a l hl⟩

theorem sortedBy_jsSort (cmp : Item → Item → Int)
    (htot : ∀ a b, cmp a b ≤ 0 ∨ cmp b a ≤ 0) :
    ∀ l, sortedBy cmp (jsSort cmp l) = true
  | [] => rfl
  | a :: l =>
    sortedBy_insertSorted cmp htot a (jsSort cmp l) (sortedBy_jsSort cmp htot l)

theorem jsSort_eq_self (cmp : Item → Item → Int) :
    ∀ l, sortedBy cmp l = true → jsSort cmp l = l
  | [], _ => rfl
  | a :: l, hs => by
    rw [sortedBy_cons] at hs
    obtain ⟨ha, hl⟩ := Bool.and_eq_true_iff.mp hs
    show insertSorted cmp a (jsSort cmp l) = a :: l
    rw [jsSort_eq_self cmp l hl]
    cases l with
    | nil => rfl
    | cons b l' =>
      simp only [leadOK, decide_eq_true_eq] at ha
      simp [insertSorted, ha]

theorem remove_rollback_items (cmp : Item → Item → Int) (id : String)
    (l : List Item) (hs : sortedBy cmp l = true) :
    rollbackRemove cmp (origOf id l) (findIdxById id l) (optimisticRemove id l) = l := by
  cases hf : findIdxById id l with
  | none => simp [origOf, optimisticRemove, rollbackRemove, hf]
  | some i =>
    obtain ⟨it, hg, hid⟩ := findIdxById_getElem id l i hf
    simp only [origOf, optimisticRemove, rollbackRemove, hf, hg, Option.some_bind]
    rw [insertAt_eraseIdx l i it hg]
    exact jsSort_eq_self cmp l hs

/-- Adjacent descending chain on integers; the shape `sortedBy cmpDefault`
reduces to on the `createdAt` keys. -/
def descChain : List Int → Bool
  | [] => true
  | [_] => true
  | a :: b :: l => decide (b ≤ a) && descChain (b :: l)

theorem sortedBy_cmpDefault_eq : ∀ l : List Item,
    sortedBy cmpDefault l = descChain (l.map Item.createdAt)
  | [] => rfl
  | [_] => rfl
  | a :: b :: l => by
    show (decide (cmpDefault a b ≤ 0) && sortedBy cmpDefault (b :: l)) = _
    rw [sortedBy_cmpDefault_eq (b :: l)]
    show _ = (decide (b.createdAt ≤ a.createdAt) && descChain ((b :: l).map Item.createdAt))
    congr 1
    rw [decide_eq_decide]
    show b.createdAt - a.createdAt ≤ 0 ↔ _
    omega

theorem map_createdAt_optimisticUpdate (u : Upd) (now : Int) (id : String)
    (l : List Item) :
    (optimisticUpdate u now id l).map Item.createdAt = l.map Item.createdAt := by
  cases hf : findIdxById id l with
  | none => simp [optimisticUpdate, hf]
  | some i =>
    cases hg : l[i]? with
    | none => simp [optimisticUpdate, hf, hg]
    | some it =>
      simp only [optimisticUpdate, hf, hg]
      rw [List.map_set]
      have hmg : (l.map Item.createdAt)[i]? = some it.createdAt := by
        rw [List.getElem?_map, hg]; rfl
      have : Item.createdAt (applyUpd u now it) = it.createdAt := rfl
      rw [this]
      exact set_getElem_self _ i _ hmg

theorem sortedBy_cmpDefault_optimisticUpdate (u : Upd) (now : Int) (id : String)
    (l : List Item) (h : sortedBy cmpDefault l = true) :
    sortedBy cmpDefault (optimisticUpdate u now id l) = true := by
  rw [sortedBy_cmpDefault_eq, map_createdAt_optimisticUpdate, ← sortedBy_cmpDefault_eq]
  exact h

/-! ## Concrete sample data -/

/-- A sample record with `createdAt = 1`. -/
def sampleA : Item :=
  { id := "a", createdAt := 1, updatedAt := none, fields := [] }

/-- A sample record with `createdAt = 2`. -/
def sampleB : Item :=
  { id := "b", createdAt := 2, updatedAt := none, fields := [] }

/-- A collection state whose items are NOT sorted by the default
comparator (oldest first instead of newest first). -/
def unsortedState : CollState :=
  { items := [sampleA, sampleB], loading := false, error := none,
    initialLoadComplete := true }

/-- A collection state whose items are sorted by the default comparator. -/
def sortedState : CollState :=
  { items := [sampleB, sampleA], loading := false, error := none,
    initialLoadComplete := true }

/-- A collection state carrying a previous failure in `error`. -/
def errorState : CollState :=
  { items := [], loading := false, error := some "previous failure",
    initialLoadComplete := true }

/-- A comparator on the mutable `updatedAt` field (most recently updated
last). -/
def cmpByUpdated (a b : Item) : Int :=
  b.updatedAt.getD 0 - a.updatedAt.getD 0

/-- A record last updated at time 10. -/
def updA : Item :=
  { id := "1", createdAt := 0, updatedAt := some 10, fields := [] }

/-- A record last updated at time 5. -/
def updB : Item :=
  { id := "2", createdAt := 0, updatedAt := some 5, fields := [] }

/-- A collection state sorted by `cmpByUpdated`. -/
def updState : CollState :=
  { items := [updA, updB], loading := false, error := none,
    initialLoadComplete := true }

/-- A one-record store used as a witness input. -/
def demoStore : Store := [("a", sampleA)]

/-! ## Claims -/

/-- C1 (counterexample): the rollback invariant fails as stated for
`remove`: from a collection state whose items are not sorted by the
comparator, a failed `remove` leaves `items` re-sorted, not equal to the
pre-call list. -/
theorem rollback_invariant_counterexample :
    (CollState.remove cmpDefault "a" (Except.error "boom") unsortedState).1.items ≠
      unsortedState.items := by
  decide

/-- C1 (amended): after a failed `update(id, p)` the items list always
equals the pre-call list; after a failed `remove(id)` it equals the
pre-call list provided the pre-call list was sorted by the collection's
comparator (the rollback re-sorts, so an unsorted pre-call list may come
back permuted). -/
theorem rollback_invariant (cmp : Item → Item → Int) (now : Int) (id : String)
    (u : Upd) (e : String) (s : CollState) :
    (CollState.update now id u (Except.error e) s).1.items = s.items ∧
    (sortedBy cmp s.items = true →
      (CollState.remove cmp id (Except.error e) s).1.items = s.items) := by
  constructor
  · exact update_rollback_items u now id s.items
  · intro hs
    exact remove_rollback_items cmp id s.items hs

/-- C1 (witness): the rollback theorem applied to a concrete sorted
state. -/
theorem rollback_invariant_witness :
    (CollState.update 7 "a" [("t", "x")] (Except.error "boom") sortedState).1.items =
      sortedState.items ∧
    (CollState.remove cmpDefault "a" (Except.error "boom") sortedState).1.items =
      sortedState.items :=
  ⟨(rollback_invariant cmpDefault 7 "a" [("t", "x")] "boom" sortedState).1,
   (rollback_invariant cmpDefault 7 "a" [("t", "x")] "boom" sortedState).2 (by decide)⟩

/-- C2 (counterexample): a change notification with `origin = conflict` is
NOT treated like `origin = remote`: it triggers no reload while `remote`
triggers one, in both the per-component handler and the shared handler. -/
theorem conflict_reload_counterexample :
    changeHandlerReloads true Origin.conflict ≠ changeHandlerReloads true Origin.remote ∧
    sharedHandlerReloads Origin.conflict ≠ sharedHandlerReloads Origin.remote := by
  decide

/-- C2 (amended): a change notification with `origin = conflict` triggers
no reload at all — it is ignored like `window`, not treated like
`remote`. -/
theorem conflict_no_reload :
    (∀ b, changeHandlerReloads b Origin.conflict = 0) ∧
    sharedHandlerReloads Origin.conflict = 0 := by
  decide

/-- C3 (counterexample): with a caller-supplied comparator on the mutable
`updatedAt` field, a successful `update` leaves `items` unsorted: the
optimistic write mutates the item in place and never re-sorts. -/
theorem sort_stability_counterexample :
    sortedBy cmpByUpdated updState.items = true ∧
    sortedBy cmpByUpdated
      ((CollState.update 20 "2" [] (Except.ok ()) updState).1.items) = false := by
  decide

/-- C3 (amended): after a successful `reload` or `add`, `items` is sorted
according to any total comparator; after a successful `update` the list is
sorted only when the comparator is insensitive to the optimistic write —
as the default `createdAt` comparator is — because `update` performs no
re-sort. -/
theorem sort_stability (cmp : Item → Item → Int) :
    ((∀ a b, cmp a b ≤ 0 ∨ cmp b a ≤ 0) →
      (∀ filt l s, sortedBy cmp ((CollState.reload cmp filt (Except.ok l) s).items) = true) ∧
      (∀ it s, sortedBy cmp ((CollState.add cmp (Except.ok it) s).1.items) = true)) ∧
    (∀ now id u s, sortedBy cmpDefault s.items = true →
      sortedBy cmpDefault ((CollState.update now id u (Except.ok ()) s).1.items) = true) := by
  constructor
  · intro htot
    constructor
    · intro filt l s
      exact sortedBy_jsSort cmp htot _
    · intro it s
      exact sortedBy_jsSort cmp htot _
  · intro now id u s hs
    exact sortedBy_cmpDefault_optimisticUpdate u now id s.items hs

/-- C3 (witness): sortedness after `add` and after `update` with the
default comparator, at concrete inputs. -/
theorem sort_stability_witness :
    sortedBy cmpDefault ((CollState.add cmpDefault (Except.ok sampleA) sortedState).1.items) = true ∧
    sortedBy cmpDefault ((CollState.update 9 "a" [] (Except.ok ()) sortedState).1.items) = true :=
  ⟨((sort_stability cmpDefault).1
      (by intro a b; unfold cmpDefault; omega)).2 sampleA sortedState,
   (sort_stability cmpDefault).2 9 "a" [] sortedState (by decide)⟩

/-- C4 (counterexample): before the initial load completes, a change
notification with `origin = remote` triggers zero reloads in the
per-component handler, not exactly one. -/
theorem reconciliation_counterexample :
    changeHandlerReloads false Origin.remote ≠ 1 := by
  decide

/-- C4 (amended): `origin = window` never triggers a reload; `origin =
local` or `origin = remote` triggers exactly one reload once the initial
load has completed, and zero before that (the per-component handler is
gated on `initialLoadComplete`; the shared handler has no gate). -/
theorem reconciliation (b : Bool) (o : Origin) :
    changeHandlerReloads b Origin.window = 0 ∧
    changeHandlerReloads true Origin.localOrigin = 1 ∧
    changeHandlerReloads true Origin.remote = 1 ∧
    changeHandlerReloads false o = 0 ∧
    sharedHandlerReloads Origin.window = 0 ∧
    sharedHandlerReloads Origin.localOrigin = 1 ∧
    sharedHandlerReloads Origin.remote = 1 := by
  cases b <;> cases o <;> decide

/-- C5 (counterexample): a successful operation of the same kind does not
clear a previous failure: with `error` holding a previous failure, a
successful `add` leaves it set. -/
theorem error_clear_counterexample :
    (CollState.add cmpDefault (Except.ok sampleA) errorState).1.error ≠ none := by
  decide

/-- C5 (amended): only `reload` clears the error state (it clears it on
every successful reload); successful `add`, `update` and `remove` leave a
previously recorded error untouched. -/
theorem error_clear (cmp : Item → Item → Int) (filt : Option (Item → Bool))
    (l : List Item) (it : Item) (now : Int) (id : String) (u : Upd) (s : CollState) :
    (CollState.reload cmp filt (Except.ok l) s).error = none ∧
    (CollState.add cmp (Except.ok it) s).1.error = s.error ∧
    (CollState.update now id u (Except.ok ()) s).1.error = s.error ∧
    (CollState.remove cmp id (Except.ok ()) s).1.error = s.error := by
  refine ⟨?_, rfl, rfl, rfl⟩
  simp [CollState.reload]

/-- C6 (counterexample): `dispose()` does not release the change
subscription: after `init()` then `dispose()`, a change notification with
`origin = remote` still triggers a reload through the handler registered
by `init()` (reload count goes from 1 to 2). -/
theorem dispose_counterexample :
    (deliverChange Origin.remote (disposeCollection (sharedInit freshShared))).reloadCalls ≠
      (disposeCollection (sharedInit freshShared)).reloadCalls := by
  decide

/-- C6 (amended): `dispose()` releases the reactive root and resets the
`hasInit` guard to false, so a later `init()` does start again (one more
reload); but the change subscription is never unregistered: the handler
registered by the first `init()` keeps triggering reloads, and a re-init
registers a second handler. -/
theorem dispose_semantics (st : SharedLC) :
    (disposeCollection st).hasInit = false ∧
    (disposeCollection st).rootAlive = false ∧
    (disposeCollection st).handlers = st.handlers ∧
    (deliverChange Origin.remote (disposeCollection (sharedInit freshShared))).reloadCalls = 2 ∧
    (sharedInit (disposeCollection (sharedInit freshShared))).reloadCalls = 2 ∧
    (sharedInit (disposeCollection (sharedInit freshShared))).handlers = 2 := by
  refine ⟨rfl, rfl, rfl, ?_, ?_, ?_⟩ <;> decide

/-- C7: `init()` is idempotent-guarded: a second `init()` is a no-op, and
two consecutive `init()` calls on a fresh shared collection perform
exactly one `reload()` and register exactly one change handler. -/
theorem init_idempotent :
    (∀ st, sharedInit (sharedInit st) = sharedInit st) ∧
    (sharedInit (sharedInit freshShared)).reloadCalls = 1 ∧
    (sharedInit (sharedInit freshShared)).handlers = 1 := by
  refine ⟨?_, by decide, by decide⟩
  intro st
  by_cases h : st.hasInit <;> simp [sharedInit, h]

/-- C8: when the fetch inside `reload()` fails, `items` is left at its
last-known-good value, `error` is set to the failure, and `loading` is
false — in both the per-component collection and the shared variant. -/
theorem load_failure (cmp : Item → Item → Int) (filt : Option (Item → Bool))
    (e : String) (s : CollState) (t : SharedState) :
    (CollState.reload cmp filt (Except.error e) s).items = s.items ∧
    (CollState.reload cmp filt (Except.error e) s).error = some e ∧
    (CollState.reload cmp filt (Except.error e) s).loading = false ∧
    (SharedState.reload cmp filt (Except.error e) t).items = t.items ∧
    (SharedState.reload cmp filt (Except.error e) t).error = some e ∧
    (SharedState.reload cmp filt (Except.error e) t).loading = false :=
  ⟨rfl, rfl, rfl, rfl, rfl, rfl⟩

/-- C9: for an id absent from the store, the module's `update` returns an
absent result and performs no store (the store is unchanged), and `remove`
completes leaving the store unchanged; neither is a failure. -/
theorem notfound_noop (now : Int) (st : Store) (id : String) (u : Upd)
    (h : mget st id = none) :
    mupdate now st id u = (st, none) ∧ mremove st id = st := by
  constructor
  · simp [mupdate, h]
  · have hf : st.find? (fun kv => decide (kv.1 = id)) = none := by
      simpa [mget] using h
    have hall := List.find?_eq_none.mp hf
    apply List.filter_eq_self.mpr
    intro kv hkv
    simpa using hall kv hkv

/-- C9 (witness): the not-found theorem applied to a concrete store and a
concrete absent id. -/
theorem notfound_noop_witness :
    mupdate 3 demoStore "zzz" [("t", "x")] = (demoStore, none) ∧
    mremove demoStore "zzz" = demoStore :=
  notfound_noop 3 demoStore "zzz" [("t", "x")] (by decide)

/-- C10: the adapter's `getAll` keeps exactly the listing entries whose
value is an object containing an `id` field; every other stored value is
omitted, so the surviving entries all satisfy the id-bearing predicate. -/
theorem getAll_keeps_id_objects (listing : List (String × JVal)) :
    getAllFilter listing = listing.filter (fun kv => isObjWithId kv.2) ∧
    (getAllFilter listing).all (fun kv => isObjWithId kv.2) = true := by
  have hpt : ∀ v : JVal,
      (jsTruthy v && jsTypeofObject v && hasIdKey v) = isObjWithId v := by
    intro v
    cases v <;> simp [jsTruthy, jsTypeofObject, hasIdKey, isObjWithId]
  have heq : getAllFilter listing = listing.filter (fun kv => isObjWithId kv.2) := by
    unfold getAllFilter
    apply List.filter_congr
    intro kv _
    exact hpt kv.2
  refine ⟨heq, ?_⟩
  rw [heq]
  apply List.all_eq_true.mpr
  intro kv hkv
  exact (List.mem_filter.mp hkv).2

end Tasks
